import Mathlib

/-
  Verification development for `src/sage/modular/hecke_mf/functors.py`.

  The file embeds the construction-functor hierarchy (FormsSpaceFunctor,
  FormsRingFunctor, FormsSubSpaceFunctor), the `merge` algebra, the
  `get_base_ring` normalization and functor application, and proves the
  stated properties about them.
-/

set_option autoImplicit false

/-- Modelled from the spec: the external `AnalyticType` lattice
(`analytic_type.py` is not part of the sources).  The spec describes it as
"an immutable set/lattice element over a fixed finite vocabulary of
qualifiers {holomorphic, weak, cuspidal, meromorphic, quasi}" whose join
`+` is the pointwise union.  We represent a value by one flag per
qualifier; the join is the pointwise disjunction, which is commutative,
associative, idempotent and monotone as the spec requires. -/
structure AnalyticType where
  quasi : Bool
  mero : Bool
  weak : Bool
  holo : Bool
  cusp : Bool
deriving DecidableEq, Repr

/-- The lattice join, written `+` on analytic types in the source. -/
def AnalyticType.join (a b : AnalyticType) : AnalyticType :=
  ⟨a.quasi || b.quasi, a.mero || b.mero, a.weak || b.weak,
   a.holo || b.holo, a.cusp || b.cusp⟩

/-- The analytic type denoted by the string `"holo"` in the source. -/
def holoType : AnalyticType := ⟨false, false, false, true, false⟩

/-- The analytic type denoted by the string `"cusp"` in the source. -/
def cuspType : AnalyticType := ⟨false, false, false, false, true⟩

theorem AnalyticType.join_self (a : AnalyticType) : a.join a = a := by
  cases a; simp [AnalyticType.join]

theorem AnalyticType.join_comm (a b : AnalyticType) : a.join b = b.join a := by
  cases a; cases b; simp [AnalyticType.join, Bool.or_comm]

/-- Modelled from the spec: the ring-like inputs of `get_base_ring`.  The
spec says the module consumes "a `construction()` introspection returning
an optional (functor, argument) pair identifying fraction-field /
polynomial-ring wrapping".  `base` is a plain ring with no construction,
`frac` a fraction-field construction over its argument, `poly` a
univariate polynomial ring in the named variable, and `wrapped` a ring
whose construction is some functor other than the fraction-field or
polynomial one. -/
inductive SageRing where
  | base (rid : Nat)
  | frac (r : SageRing)
  | poly (r : SageRing) (var : String)
  | wrapped (tag : Nat) (r : SageRing)
deriving DecidableEq, Repr

/-- The construction functor returned by `ring.construction()`. -/
inductive RingConstruction where
  | fractionFieldFunctor
  | polynomialFunctor (var : String)
  | otherFunctor (tag : Nat)
deriving DecidableEq, Repr

/-- The `construction()` introspection of a ring. -/
def SageRing.construction : SageRing → Option (RingConstruction × SageRing)
  | .base _ => none
  | .frac r => some (.fractionFieldFunctor, r)
  | .poly r v => some (.polynomialFunctor v, r)
  | .wrapped t r => some (.otherFunctor t, r)

/-- `is_PolynomialRing` holds exactly for univariate polynomial rings. -/
def SageRing.is_PolynomialRing : SageRing → Bool
  | .poly _ _ => true
  | _ => false

/-- Number of generators; a univariate polynomial ring has exactly one. -/
def SageRing.ngens : SageRing → Nat
  | .poly _ _ => 1
  | _ => 0

/-- The `variable_name()` of a univariate polynomial ring. -/
def SageRing.variable_name : SageRing → String
  | .poly _ v => v
  | _ => ""

/-- The `.base()` method: the coefficient or argument ring of a wrapped
ring (the source only calls it on univariate polynomial rings). -/
def SageRing.baseRing : SageRing → SageRing
  | .poly r _ => r
  | .frac r => r
  | .wrapped _ r => r
  | r => r

/-- `get_base_ring(ring, var_name)` from the source (lines 82-92): unwrap
one fraction-field construction, then one univariate polynomial ring in
`var_name` with a single generator, then one more fraction-field
construction. -/
def get_base_ring (ring : SageRing) (var_name : String) : SageRing :=
  let b1 := match ring.construction with
    | some (RingConstruction.fractionFieldFunctor, b) => b
    | _ => ring
  let b2 := if b1.is_PolynomialRing && b1.ngens == 1 && b1.variable_name == var_name
    then b1.baseRing else b1
  let b3 := match b2.construction with
    | some (RingConstruction.fractionFieldFunctor, b) => b
    | _ => b2
  b3

/-- A ring still unwrapped by `get_base_ring` for variable `v`: a
fraction-field construction, or a univariate polynomial ring in `v`. -/
def unwrappable (r : SageRing) (v : String) : Bool :=
  match r with
  | .frac _ => true
  | .poly _ w => w == v
  | _ => false

/-- A plain ring: one carrying no fraction-field and no polynomial-ring
wrapping. -/
def isPlainRing : SageRing → Bool
  | .base _ => true
  | .wrapped _ _ => true
  | _ => false

/-- The state of a `FormsSpaceFunctor`: analytic type, group (identified
by its invariant `n`), weight `k` and multiplier `ep`.  The constructor
stores the canonical parameters; the external `canonical_parameters`
routine is the identity on already-canonical tuples, over which the
properties below quantify. -/
structure SpaceData where
  analytic_type : AnalyticType
  group : Nat
  k : ℚ
  ep : ℤ
deriving DecidableEq, Repr

/-- The functor hierarchy of the source: `space` is a FormsSpaceFunctor,
`ring` a FormsRingFunctor (with its `red_hom` flag), and `subspace` a
FormsSubSpaceFunctor.  The `subspace` ambient is a `SpaceData` because the
FormsSubSpaceFunctor constructor raises unless its ambient functor is a
FormsSpaceFunctor (source line 158). -/
inductive FormsFunctor where
  | space (d : SpaceData)
  | ring (analytic_type : AnalyticType) (group : Nat) (red_hom : Bool)
  | subspace (ambient : SpaceData) (basis : List Nat)
deriving DecidableEq, Repr

/-- `FormsSpaceFunctor(analytic_type, group, k, ep)`. -/
def FormsSpaceFunctor (t : AnalyticType) (n : Nat) (k : ℚ) (ep : ℤ) : FormsFunctor :=
  FormsFunctor.space ⟨t, n, k, ep⟩

/-- `FormsRingFunctor(analytic_type, group, red_hom)`. -/
def FormsRingFunctor (t : AnalyticType) (n : Nat) (red_hom : Bool) : FormsFunctor :=
  FormsFunctor.ring t n red_hom

/-- `FormsSubSpaceFunctor(ambient_space_functor, basis)`; basis elements
are opaque ambient-space elements, compared by sequence equality. -/
def FormsSubSpaceFunctor (amb : SpaceData) (basis : List Nat) : FormsFunctor :=
  FormsFunctor.subspace amb basis

/-- `ConstantFormsSpaceFunctor(group)` from the source (line 112):
`FormsSpaceFunctor("holo", group, QQ(0), ZZ(1))`. -/
def ConstantFormsSpaceFunctor (group : Nat) : FormsFunctor :=
  FormsSpaceFunctor holoType group 0 1

/-- An arbitrary Python object passed to `merge`: either a functor of the
hierarchy, or a foreign object of some other type. -/
inductive PObj where
  | functor (F : FormsFunctor)
  | foreign (tag : Nat)
deriving DecidableEq, Repr

/-- The Python `self == other` test at the head of each `merge`: the
`__eq__` methods demand an exact type match and field-wise equality, so a
foreign object is never equal to a functor, and structural equality
decides the rest. -/
def eqObj (F : FormsFunctor) : PObj → Bool
  | .functor G => F == G
  | .foreign _ => false

/-- The substitution `other = other._ambient_space_functor` performed when
`other` is a FormsSubSpaceFunctor (source lines 459-460 and 647-648). -/
def degradeSub : PObj → PObj
  | .functor (.subspace amb _) => .functor (.space amb)
  | o => o

/-- `FormsSpaceFunctor.merge` (source lines 456-475). -/
def spaceMerge (s : SpaceData) (other : PObj) : Option FormsFunctor :=
  if eqObj (.space s) other then some (.space s) else
  match degradeSub other with
  | .functor (.space t) =>
    if s.group == t.group then
      if s.k == t.k && s.ep == t.ep then
        some (.space ⟨s.analytic_type.join t.analytic_type, s.group, s.k, s.ep⟩)
      else
        some (.ring (s.analytic_type.join t.analytic_type) s.group true)
    else none
  | .functor (.ring t2 g2 r2) =>
    if s.group == g2 then
      some (.ring (s.analytic_type.join t2) s.group r2)
    else none
  | _ => none

/-- `FormsRingFunctor.merge` (source lines 644-661). -/
def ringMerge (t1 : AnalyticType) (g1 : Nat) (r1 : Bool) (other : PObj) :
    Option FormsFunctor :=
  if eqObj (.ring t1 g1 r1) other then some (.ring t1 g1 r1) else
  match degradeSub other with
  | .functor (.space t) =>
    if g1 == t.group then
      some (.ring (t1.join t.analytic_type) g1 r1)
    else none
  | .functor (.ring t2 g2 r2) =>
    if g1 == g2 then
      some (.ring (t1.join t2) g1 (r1 && r2))
    else none
  | _ => none

/-- `FormsSubSpaceFunctor.merge` (source lines 271-287). -/
def subMerge (amb : SpaceData) (basis : List Nat) (other : PObj) :
    Option FormsFunctor :=
  if eqObj (.subspace amb basis) other then some (.subspace amb basis) else
  match other with
  | .functor (.subspace amb2 basis2) =>
    match spaceMerge amb (.functor (.space amb2)) with
    | some (.space m) =>
      if basis == basis2 then some (.subspace m basis) else some (.space m)
    | r => r
  | o => spaceMerge amb o

/-- Dispatch of `merge` over the hierarchy.  A `none` result is the "no
common functor" sentinel (Python `None`), including the implicit
fall-through return. -/
def FormsFunctor.merge : FormsFunctor → PObj → Option FormsFunctor
  | .space s, o => spaceMerge s o
  | .ring t g r, o => ringMerge t g r o
  | .subspace amb b, o => subMerge amb b o

/-- The group invariant of a functor of the hierarchy (for a subspace
functor, the group of its ambient space functor). -/
def FormsFunctor.groupOf : FormsFunctor → Nat
  | .space s => s.group
  | .ring _ g _ => g
  | .subspace amb _ => amb.group

/-- Modelled from the spec: the instances built by the external
`FormsSpace`, `FormsRing` and `SubSpaceForms` constructors
(`constructor.py` and `subspace.py` are not part of the sources).  The
spec describes them as constructors "taking (analytic_type, group, ring,
k, ep) or (analytic_type, group, ring, red_hom) or (ambient_instance,
basis)"; we record exactly those arguments. -/
inductive FormsObj where
  | spaceObj (t : AnalyticType) (n : Nat) (base : SageRing) (k : ℚ) (ep : ℤ)
  | ringObj (t : AnalyticType) (n : Nat) (base : SageRing) (red_hom : Bool)
  | subObj (ambient : FormsObj) (basis : List Nat)
deriving DecidableEq, Repr

/-- The `isinstance(ambient_space, FormsSpace_abstract)` test (source line
203): forms spaces and their subspaces are forms-space instances, forms
rings are not. -/
def FormsObj.isFormsSpaceInstance : FormsObj → Bool
  | .spaceObj _ _ _ _ _ => true
  | .subObj _ _ => true
  | .ringObj _ _ _ _ => false

/-- A ring-like argument of functor application: either a `BaseFacade`
carrying its stored `_ring` field (which `BaseFacade.__init__` sets to
`get_base_ring(ring)`, source line 728), or a plain non-facade ring. -/
inductive RingInput where
  | facade (stored : SageRing)
  | plainRing (r : SageRing)
deriving DecidableEq, Repr

/-- `BaseFacade(ring)`: the constructed facade stores
`get_base_ring(ring)` as its `_ring`. -/
def BaseFacade (r : SageRing) : RingInput :=
  RingInput.facade (get_base_ring r "d")

/-- `FormsSpaceFunctor.__call__` (source lines 385-391).  On a facade the
forms space over `get_base_ring(R._ring)` is built; on a plain ring the
functor is merged with `ConstantFormsSpaceFunctor(group)` (always
successful, same group) and the merged functor is applied to
`BaseFacade(get_base_ring(R))`.  A `none` result models an exception and
never occurs. -/
def applySpaceData (s : SpaceData) : RingInput → Option FormsObj
  | .facade stored =>
    some (.spaceObj s.analytic_type s.group (get_base_ring stored "d") s.k s.ep)
  | .plainRing r =>
    match BaseFacade (get_base_ring r "d") with
    | .facade stored =>
      match spaceMerge s (.functor (ConstantFormsSpaceFunctor s.group)) with
      | some (.space m) =>
        some (.spaceObj m.analytic_type m.group (get_base_ring stored "d") m.k m.ep)
      | some (.ring t g red) =>
        some (.ringObj t g (get_base_ring stored "d") red)
      | _ => none
    | .plainRing _ => none

/-- `FormsRingFunctor.__call__` (source lines 573-579), symmetric to the
space case. -/
def applyRingData (t : AnalyticType) (g : Nat) (red : Bool) :
    RingInput → Option FormsObj
  | .facade stored =>
    some (.ringObj t g (get_base_ring stored "d") red)
  | .plainRing r =>
    match BaseFacade (get_base_ring r "d") with
    | .facade stored =>
      match ringMerge t g red (.functor (ConstantFormsSpaceFunctor g)) with
      | some (.space m) =>
        some (.spaceObj m.analytic_type m.group (get_base_ring stored "d") m.k m.ep)
      | some (.ring t2 g2 r2) =>
        some (.ringObj t2 g2 (get_base_ring stored "d") r2)
      | _ => none
    | .plainRing _ => none

/-- Functor application.  `FormsSubSpaceFunctor.__call__` (source lines
202-206) applies the ambient space functor and wraps the result in a
`SubSpaceForms` exactly when it is a forms-space instance. -/
def FormsFunctor.app : FormsFunctor → RingInput → Option FormsObj
  | .space s, R => applySpaceData s R
  | .ring t g r, R => applyRingData t g r R
  | .subspace amb basis, R =>
    match applySpaceData amb R with
    | some ob =>
      if ob.isFormsSpaceInstance then some (.subObj ob basis) else some ob
    | none => none

section MergeLemmas

theorem spaceMerge_group_mismatch (s : SpaceData) (G : FormsFunctor)
    (h : s.group ≠ G.groupOf) : spaceMerge s (PObj.functor G) = none := by
  cases G with
  | space t =>
    have hne : s ≠ t := by
      intro hc; apply h; rw [hc]; rfl
    simp [spaceMerge, eqObj, degradeSub, FormsFunctor.groupOf] at *
    simp [hne, h]
  | ring t2 g2 r2 =>
    simp [spaceMerge, eqObj, degradeSub, FormsFunctor.groupOf] at *
    simp [h]
  | subspace amb b =>
    have hne : s ≠ amb := by
      intro hc; apply h; rw [hc]; rfl
    simp [spaceMerge, eqObj, degradeSub, FormsFunctor.groupOf] at *
    simp [hne, h]

theorem ringMerge_group_mismatch (t1 : AnalyticType) (g1 : Nat) (r1 : Bool)
    (G : FormsFunctor) (h : g1 ≠ G.groupOf) :
    ringMerge t1 g1 r1 (PObj.functor G) = none := by
  cases G with
  | space t =>
    simp [ringMerge, eqObj, degradeSub, FormsFunctor.groupOf] at *
    simp [h]
  | ring t2 g2 r2 =>
    have hne : ¬(t1 = t2 ∧ g1 = g2 ∧ r1 = r2) := by
      intro hc; exact h hc.2.1
    simp [ringMerge, eqObj, degradeSub, FormsFunctor.groupOf] at *
    simp [hne, h]
  | subspace amb b =>
    simp [ringMerge, eqObj, degradeSub, FormsFunctor.groupOf] at *
    simp [h]

end MergeLemmas

/-- C1: merging two FormsSpaceFunctor values with equal group, weight and
multiplier yields the FormsSpaceFunctor whose analytic type is the lattice
join of the two analytic types, with the shared group, weight and
multiplier. -/
theorem space_space_same_weight_merge (T1 T2 : AnalyticType) (n : Nat) (k : ℚ) (ep : ℤ) :
    (FormsSpaceFunctor T1 n k ep).merge (PObj.functor (FormsSpaceFunctor T2 n k ep))
      = some (FormsSpaceFunctor (T1.join T2) n k ep) := by
  by_cases h : T1 = T2
  · subst h
    simp [FormsSpaceFunctor, FormsFunctor.merge, spaceMerge, eqObj,
      AnalyticType.join_self]
  · have hne : (⟨T1, n, k, ep⟩ : SpaceData) ≠ ⟨T2, n, k, ep⟩ := by
      intro hc; injection hc; contradiction
    simp [FormsSpaceFunctor, FormsFunctor.merge, spaceMerge, eqObj, degradeSub, hne]

/-- C2: merging two FormsSpaceFunctor values with equal group but different
(weight, multiplier) pairs yields the FormsRingFunctor with the joined
analytic type and red_hom set to True. -/
theorem space_space_diff_weight_merge (T1 T2 : AnalyticType) (n : Nat) (k1 k2 : ℚ)
    (e1 e2 : ℤ) (h : ¬(k1 = k2 ∧ e1 = e2)) :
    (FormsSpaceFunctor T1 n k1 e1).merge (PObj.functor (FormsSpaceFunctor T2 n k2 e2))
      = some (FormsRingFunctor (T1.join T2) n true) := by
  have hne : (⟨T1, n, k1, e1⟩ : SpaceData) ≠ ⟨T2, n, k2, e2⟩ := by
    intro hc; injection hc with h1 h2 h3 h4; exact h ⟨h3, h4⟩
  simp [FormsSpaceFunctor, FormsRingFunctor, FormsFunctor.merge, spaceMerge, eqObj,
    degradeSub, hne, h]

/-- Witness for C2 at a concrete input. -/
theorem space_space_diff_weight_merge_witness :
    ¬((12 : ℚ) = 10 ∧ (1 : ℤ) = 1)
    ∧ (FormsSpaceFunctor holoType 4 12 1).merge
        (PObj.functor (FormsSpaceFunctor cuspType 4 10 1))
      = some (FormsRingFunctor (holoType.join cuspType) 4 true) :=
  ⟨by decide, space_space_diff_weight_merge holoType cuspType 4 12 10 1 1 (by decide)⟩

/-- C3: merging any two functors of the hierarchy whose groups differ
returns the "no common functor" sentinel `none`, for every combination of
the three functor kinds; the merge functions are total, so no exception is
raised. -/
theorem group_mismatch_merge_none (F G : FormsFunctor) (h : F.groupOf ≠ G.groupOf) :
    F.merge (PObj.functor G) = none := by
  cases F with
  | space s => exact spaceMerge_group_mismatch s G h
  | ring t g r => exact ringMerge_group_mismatch t g r G h
  | subspace amb b =>
    have hamb : amb.group ≠ G.groupOf := h
    cases G with
    | space s2 =>
      have := spaceMerge_group_mismatch amb (FormsFunctor.space s2) hamb
      simp [FormsFunctor.merge, subMerge, eqObj, this]
    | ring t2 g2 r2 =>
      have := spaceMerge_group_mismatch amb (FormsFunctor.ring t2 g2 r2) hamb
      simp [FormsFunctor.merge, subMerge, eqObj, this]
    | subspace amb2 b2 =>
      have hamb2 : amb.group ≠ (FormsFunctor.space amb2).groupOf := hamb
      have key := spaceMerge_group_mismatch amb (FormsFunctor.space amb2) hamb2
      have hne : ¬(amb = amb2 ∧ b = b2) := by
        intro hc; apply hamb; rw [hc.1]; rfl
      simp [FormsFunctor.merge, subMerge, eqObj, key, hne]

/-- Witness for C3 at a concrete input. -/
theorem group_mismatch_merge_none_witness :
    (FormsSpaceFunctor holoType 4 0 1).groupOf ≠ (FormsSpaceFunctor cuspType 5 0 1).groupOf
    ∧ (FormsSpaceFunctor holoType 4 0 1).merge
        (PObj.functor (FormsSpaceFunctor cuspType 5 0 1)) = none :=
  ⟨by decide, group_mismatch_merge_none _ _ (by decide)⟩

/-- C4: merging two FormsRingFunctor values with equal group yields the
FormsRingFunctor with the joined analytic type and the conjunction of the
two red_hom flags. -/
theorem ring_red_hom_merge (T1 T2 : AnalyticType) (n : Nat) (r1 r2 : Bool) :
    (FormsRingFunctor T1 n r1).merge (PObj.functor (FormsRingFunctor T2 n r2))
      = some (FormsRingFunctor (T1.join T2) n (r1 && r2)) := by
  by_cases h : T1 = T2 ∧ r1 = r2
  · obtain ⟨h1, h2⟩ := h
    subst h1; subst h2
    simp [FormsRingFunctor, FormsFunctor.merge, ringMerge, eqObj,
      AnalyticType.join_self]
  · simp [FormsRingFunctor, FormsFunctor.merge, ringMerge, eqObj, degradeSub]
    intro h1 h2
    exact absurd ⟨h1, h2⟩ h

theorem get_base_ring_of_not_unwrappable (x : SageRing) (v : String)
    (h : unwrappable x v = false) : get_base_ring x v = x := by
  cases x with
  | base rid => rfl
  | wrapped t r => rfl
  | frac r => simp [unwrappable] at h
  | poly r w =>
    have hw : (w == v) = false := by simpa [unwrappable] using h
    simp [get_base_ring, SageRing.construction, SageRing.is_PolynomialRing,
      SageRing.ngens, SageRing.variable_name, hw]

/-- C5 counterexample: `get_base_ring` is not idempotent.  The univariate
polynomial ring in `d` over the univariate polynomial ring in `d` over a
plain ring unwraps one layer per application. -/
theorem get_base_ring_not_idempotent :
    get_base_ring
        (get_base_ring (SageRing.poly (SageRing.poly (SageRing.base 0) "d") "d") "d") "d"
      ≠ get_base_ring (SageRing.poly (SageRing.poly (SageRing.base 0) "d") "d") "d" := by
  decide

/-- C5 (amended): applying `get_base_ring` twice agrees with applying it
once whenever the single application's result is no longer a
fraction-field construction or a univariate polynomial ring in the chosen
variable; and `get_base_ring` of a plain ring (no fraction-field or
polynomial-ring wrapping) returns that ring unchanged. -/
theorem get_base_ring_normalization :
    (∀ (r : SageRing) (v : String), unwrappable (get_base_ring r v) v = false →
      get_base_ring (get_base_ring r v) v = get_base_ring r v)
    ∧ (∀ (r : SageRing), isPlainRing r = true → ∀ (v : String), get_base_ring r v = r) := by
  constructor
  · intro r v h
    exact get_base_ring_of_not_unwrappable _ _ h
  · intro r h v
    apply get_base_ring_of_not_unwrappable
    cases r <;> simp_all [isPlainRing, unwrappable]

/-- Witness for C5 (amended) at concrete inputs. -/
theorem get_base_ring_normalization_witness :
    unwrappable (get_base_ring (SageRing.frac (SageRing.base 2)) "d") "d" = false
    ∧ get_base_ring (get_base_ring (SageRing.frac (SageRing.base 2)) "d") "d"
        = get_base_ring (SageRing.frac (SageRing.base 2)) "d"
    ∧ isPlainRing (SageRing.base 3) = true
    ∧ get_base_ring (SageRing.base 3) "d" = SageRing.base 3 :=
  ⟨by decide, get_base_ring_normalization.1 (SageRing.frac (SageRing.base 2)) "d" (by decide),
   by decide, get_base_ring_normalization.2 (SageRing.base 3) (by decide) "d"⟩

/-- C6 counterexample: a FormsSubSpaceFunctor whose ambient has weight 0
and multiplier 1 applied to a plain (non-facade) ring constructs a
subspace, while the ambient functor applied directly yields the plain
forms space, so the two results differ. -/
theorem subspace_apply_plain_counterexample :
    (FormsSubSpaceFunctor ⟨holoType, 4, 0, 1⟩ [0]).app
        (RingInput.plainRing (SageRing.base 0))
      ≠ (FormsSpaceFunctor holoType 4 0 1).app (RingInput.plainRing (SageRing.base 0)) := by
  decide

/-- C6 (amended): for every FormsSubSpaceFunctor whose ambient has
(weight, multiplier) different from (0, 1), applying it to a plain
(non-facade) ring yields the same result as applying the ambient
FormsSpaceFunctor directly; the basis is dropped and no subspace is
constructed. -/
theorem subspace_apply_plain_degrades (amb : SpaceData) (basis : List Nat) (r : SageRing)
    (h : ¬(amb.k = 0 ∧ amb.ep = 1)) :
    (FormsSubSpaceFunctor amb basis).app (RingInput.plainRing r)
      = (FormsFunctor.space amb).app (RingInput.plainRing r) := by
  have hne : amb ≠ (⟨holoType, amb.group, 0, 1⟩ : SpaceData) := by
    intro hc
    exact h ⟨by rw [hc], by rw [hc]⟩
  have key : applySpaceData amb (RingInput.plainRing r)
      = some (FormsObj.ringObj (amb.analytic_type.join holoType) amb.group
          (get_base_ring (get_base_ring (get_base_ring r "d") "d") "d") true) := by
    simp [applySpaceData, BaseFacade, spaceMerge, ConstantFormsSpaceFunctor,
      FormsSpaceFunctor, eqObj, degradeSub, hne, h]
  simp [FormsFunctor.app, FormsSubSpaceFunctor, key, FormsObj.isFormsSpaceInstance]

/-- Witness for C6 (amended) at a concrete input. -/
theorem subspace_apply_plain_degrades_witness :
    ¬((⟨holoType, 4, 12, 1⟩ : SpaceData).k = 0 ∧ (⟨holoType, 4, 12, 1⟩ : SpaceData).ep = 1)
    ∧ (FormsSubSpaceFunctor ⟨holoType, 4, 12, 1⟩ [0]).app
        (RingInput.plainRing (SageRing.base 0))
      = (FormsFunctor.space ⟨holoType, 4, 12, 1⟩).app
          (RingInput.plainRing (SageRing.base 0)) :=
  ⟨by decide, subspace_apply_plain_degrades ⟨holoType, 4, 12, 1⟩ [0] (SageRing.base 0)
    (by decide)⟩

/-- C7: merging two FormsSubSpaceFunctor values whose ambients share the
same group, weight and multiplier yields, when the bases are
sequence-equal, the FormsSubSpaceFunctor with that basis over the merged
ambient, and otherwise just the merged ambient space functor with the
basis dropped. -/
theorem subspace_merge_basis_preservation (a1 a2 : SpaceData) (b1 b2 : List Nat)
    (hg : a1.group = a2.group) (hk : a1.k = a2.k) (he : a1.ep = a2.ep) :
    (FormsSubSpaceFunctor a1 b1).merge (PObj.functor (FormsSubSpaceFunctor a2 b2))
      = if b1 = b2
        then some (FormsSubSpaceFunctor
          ⟨a1.analytic_type.join a2.analytic_type, a1.group, a1.k, a1.ep⟩ b1)
        else some (FormsFunctor.space
          ⟨a1.analytic_type.join a2.analytic_type, a1.group, a1.k, a1.ep⟩) := by
  by_cases ha : a1 = a2
  · subst ha
    by_cases hb : b1 = b2
    · subst hb
      simp [FormsSubSpaceFunctor, FormsFunctor.merge, subMerge, eqObj,
        AnalyticType.join_self]
    · simp [FormsSubSpaceFunctor, FormsFunctor.merge, subMerge, spaceMerge, eqObj,
        degradeSub, hb, AnalyticType.join_self]
  · have hne : ¬(a1 = a2 ∧ b1 = b2) := by
      intro hc; exact ha hc.1
    obtain ⟨t1, g1, k1, e1⟩ := a1
    obtain ⟨t2, g2, k2, e2⟩ := a2
    simp only at hg hk he
    subst hg; subst hk; subst he
    have hne2 : (⟨t1, g1, k1, e1⟩ : SpaceData) ≠ ⟨t2, g1, k1, e1⟩ := by
      intro hc; exact ha hc
    by_cases hb : b1 = b2
    · subst hb
      simp [FormsSubSpaceFunctor, FormsFunctor.merge, subMerge, spaceMerge, eqObj,
        degradeSub, hne, hne2]
    · simp [FormsSubSpaceFunctor, FormsFunctor.merge, subMerge, spaceMerge, eqObj,
        degradeSub, hne, hne2, hb]

/-- Witness for C7 at concrete inputs. -/
theorem subspace_merge_basis_preservation_witness :
    (⟨holoType, 4, 12, 1⟩ : SpaceData).group = (⟨cuspType, 4, 12, 1⟩ : SpaceData).group
    ∧ (FormsSubSpaceFunctor ⟨holoType, 4, 12, 1⟩ [0]).merge
        (PObj.functor (FormsSubSpaceFunctor ⟨cuspType, 4, 12, 1⟩ [0]))
      = if ([0] : List Nat) = [0]
        then some (FormsSubSpaceFunctor ⟨holoType.join cuspType, 4, 12, 1⟩ [0])
        else some (FormsFunctor.space ⟨holoType.join cuspType, 4, 12, 1⟩) :=
  ⟨rfl, subspace_merge_basis_preservation ⟨holoType, 4, 12, 1⟩ ⟨cuspType, 4, 12, 1⟩
    [0] [0] rfl rfl rfl⟩

/-- C8: merging any functor of the hierarchy with an argument structurally
equal to itself returns the functor itself. -/
theorem merge_self (F : FormsFunctor) : F.merge (PObj.functor F) = some F := by
  cases F <;> simp [FormsFunctor.merge, spaceMerge, ringMerge, subMerge, eqObj]

/-- C9: for a FormsSpaceFunctor and a FormsRingFunctor with the same
group, merging in either order gives the same result, namely the
FormsRingFunctor whose analytic type is the join of the two and whose
red_hom flag is the ring functor's flag. -/
theorem space_ring_merge_comm (T1 T2 : AnalyticType) (n : Nat) (k : ℚ) (ep : ℤ)
    (r : Bool) :
    (FormsSpaceFunctor T1 n k ep).merge (PObj.functor (FormsRingFunctor T2 n r))
        = (FormsRingFunctor T2 n r).merge (PObj.functor (FormsSpaceFunctor T1 n k ep))
    ∧ (FormsSpaceFunctor T1 n k ep).merge (PObj.functor (FormsRingFunctor T2 n r))
        = some (FormsRingFunctor (T1.join T2) n r) := by
  constructor <;>
    simp [FormsSpaceFunctor, FormsRingFunctor, FormsFunctor.merge, spaceMerge,
      ringMerge, eqObj, degradeSub, AnalyticType.join_comm]

/-- C10: merging a FormsSpaceFunctor or FormsRingFunctor with an argument
that is none of the three functor kinds returns the absence value `none`
through the implicit fall-through, without raising, even though no group
mismatch is involved. -/
theorem merge_foreign_none (s : SpaceData) (t : AnalyticType) (g : Nat) (r : Bool)
    (tag : Nat) :
    (FormsFunctor.space s).merge (PObj.foreign tag) = none
    ∧ (FormsFunctor.ring t g r).merge (PObj.foreign tag) = none := by
  constructor <;> rfl
